import Mathlib

/-!
Verification of the azure-iothub-service-rs client library.

Rust strings are modelled as lists of bytes (`Bytes := List Nat`, each entry
a UTF-8 code unit), so that `str::find`, slicing and `as_bytes` keep their
byte-index semantics.  Pure helpers from the crates the code calls
(base64, hmac/sha2, url::form_urlencoded) are embedded as executable Lean
functions.  `chrono::Utc::now()` is modelled by an explicit
`now_seconds : Int` parameter.
-/

/-- Rust `String` / `&str` as its UTF-8 byte sequence. -/
abbrev Bytes := List Nat

/-- UTF-8 encoding of a single character (standard four-range encoder). -/
def utf8Char (c : Char) : Bytes :=
  let n := c.toNat
  if n < 128 then [n]
  else if n < 2048 then [192 + n / 64, 128 + n % 64]
  else if n < 65536 then [224 + n / 4096, 128 + n / 64 % 64, 128 + n % 64]
  else [240 + n / 262144, 128 + n / 4096 % 64, 128 + n / 64 % 64, 128 + n % 64]

/-- UTF-8 bytes of a Lean string literal; used to write Rust string
literals inside the model. -/
def utf8 (s : String) : Bytes :=
  s.data.flatMap utf8Char

/-- Whether `pat` occurs at the very start of `v` (byte-wise). -/
def startsWithL : Bytes → Bytes → Bool
  | _, [] => true
  | [], _ :: _ => false
  | b :: v, p :: pat => b == p && startsWithL v pat

/-- Byte index of the first occurrence of `pat` in `v`, like Rust
`str::find` on a string pattern (`None` when absent). -/
def findSub : Bytes → Bytes → Option Nat
  | v, pat =>
    if startsWithL v pat then some 0
    else match v with
      | [] => none
      | _ :: rest => (findSub rest pat).map (· + 1)

/-- Rust `str::contains` on a string pattern. -/
def containsSub (v pat : Bytes) : Bool :=
  (findSub v pat).isSome

/-- Byte index of the first occurrence of byte `c`, like Rust
`str::find` on a `char` pattern (ASCII only in this codebase). -/
def findByte : Bytes → Nat → Option Nat
  | [], _ => none
  | b :: rest, c => if b = c then some 0 else (findByte rest c).map (· + 1)

/-- Rust `str::split(';')`: splitting an empty string yields one empty
field, and every separator starts a new field. -/
def splitSemi : Bytes → List Bytes
  | [] => [[]]
  | b :: rest =>
    if b = 59 then [] :: splitSemi rest
    else match splitSemi rest with
      | [] => [[b]]
      | h :: t => (b :: h) :: t

/-- Rust slice `&v[s..e]`: `none` models the panic raised when the bounds
are out of range or out of order. -/
def rustSlice (v : Bytes) (s e : Nat) : Option Bytes :=
  if s ≤ e ∧ e ≤ v.length then some ((v.drop s).take (e - s)) else none

/- ### SHA-256 (FIPS 180-4), byte-level, on `Bytes` -/

def u32mod : Nat := 4294967296

def add32 (a b : Nat) : Nat := (a + b) % u32mod

def rotr32 (n x : Nat) : Nat := x / 2 ^ n + x % 2 ^ n * 2 ^ (32 - n)

def shr32 (n x : Nat) : Nat := x / 2 ^ n

def bxor (a b : Nat) : Nat := Nat.xor a b

def band (a b : Nat) : Nat := Nat.land a b

def bnot32 (a : Nat) : Nat := Nat.xor a 4294967295

def sha256K : List Nat :=
  [1116352408, 1899447441, 3049323471, 3921009573, 961987163,
   1508970993, 2453635748, 2870763221, 3624381080, 310598401,
   607225278, 1426881987, 1925078388, 2162078206, 2614888103,
   3248222580, 3835390401, 4022224774, 264347078, 604807628,
   770255983, 1249150122, 1555081692, 1996064986, 2554220882,
   2821834349, 2952996808, 3210313671, 3336571891, 3584528711,
   113926993, 338241895, 666307205, 773529912, 1294757372,
   1396182291, 1695183700, 1986661051, 2177026350, 2456956037,
   2730485921, 2820302411, 3259730800, 3345764771, 3516065817,
   3600352804, 4094571909, 275423344, 430227734, 506948616,
   659060556, 883997877, 958139571, 1322822218, 1537002063,
   1747873779, 1955562222, 2024104815, 2227730452, 2361852424,
   2428436474, 2756734187, 3204031479, 3329325298]

def sha256H0 : List Nat :=
  [1779033703, 3144134277, 1013904242, 2773480762, 1359893119,
   2600822924, 528734635, 1541459225]

def bigSigma0 (x : Nat) : Nat := bxor (bxor (rotr32 2 x) (rotr32 13 x)) (rotr32 22 x)

def bigSigma1 (x : Nat) : Nat := bxor (bxor (rotr32 6 x) (rotr32 11 x)) (rotr32 25 x)

def smallSigma0 (x : Nat) : Nat := bxor (bxor (rotr32 7 x) (rotr32 18 x)) (shr32 3 x)

def smallSigma1 (x : Nat) : Nat := bxor (bxor (rotr32 17 x) (rotr32 19 x)) (shr32 10 x)

/-- Extend a 16-word block to the 64-word message schedule. -/
def extendSchedule : Nat → List Nat → List Nat
  | 0, w => w
  | n + 1, w =>
    let len := w.length
    let word := (add32 (add32 (smallSigma1 (w.getD (len - 2) 0)) (w.getD (len - 7) 0))
                 (add32 (smallSigma0 (w.getD (len - 15) 0)) (w.getD (len - 16) 0)))
    extendSchedule n (w ++ [word])

/-- One SHA-256 round on the state `[a,b,c,d,e,f,g,h]`. -/
def sha256Round (st : List Nat) (k w : Nat) : List Nat :=
  let a := st.getD 0 0
  let b := st.getD 1 0
  let c := st.getD 2 0
  let d := st.getD 3 0
  let e := st.getD 4 0
  let f := st.getD 5 0
  let g := st.getD 6 0
  let h := st.getD 7 0
  let ch := bxor (band e f) (band (bnot32 e) g)
  let maj := bxor (bxor (band a b) (band a c)) (band b c)
  let t1 := add32 (add32 (add32 h (bigSigma1 e)) (add32 ch k)) w
  let t2 := add32 (bigSigma0 a) maj
  [add32 t1 t2, a, b, c, add32 d t1, e, f, g]

/-- Big-endian 4-byte groups to 32-bit words. -/
def bytesToWords : Bytes → List Nat
  | b0 :: b1 :: b2 :: b3 :: rest =>
    (b0 * 16777216 + b1 * 65536 + b2 * 256 + b3) :: bytesToWords rest
  | _ => []

/-- 32-bit words to big-endian bytes. -/
def wordsToBytes : List Nat → Bytes
  | [] => []
  | w :: rest =>
    (w / 16777216 % 256) :: (w / 65536 % 256) :: (w / 256 % 256) :: (w % 256) :: wordsToBytes rest

/-- Compress one 64-byte block into the running hash state. -/
def sha256Compress (h : List Nat) (block : Bytes) : List Nat :=
  let w := extendSchedule 48 (bytesToWords block)
  let st := (sha256K.zip w).foldl (fun st kw => sha256Round st kw.1 kw.2) h
  List.zipWith add32 h st

/-- Split into 64-byte chunks. -/
def chunk64 (l : Bytes) : List Bytes :=
  if l = [] then []
  else l.take 64 :: chunk64 (l.drop 64)
termination_by l.length
decreasing_by
  simp only [List.length_drop]
  rename_i h
  have := List.length_pos.mpr h
  omega

/-- Big-endian 8-byte encoding of a message bit length. -/
def len64be (n : Nat) : Bytes :=
  [n / 2 ^ 56 % 256, n / 2 ^ 48 % 256, n / 2 ^ 40 % 256, n / 2 ^ 32 % 256,
   n / 2 ^ 24 % 256, n / 2 ^ 16 % 256, n / 2 ^ 8 % 256, n % 256]

/-- SHA-256 padding: `0x80`, zeros to 56 mod 64, then the bit length. -/
def sha256Pad (msg : Bytes) : Bytes :=
  let len := msg.length
  let zeros := (56 + 64 - (len + 1) % 64) % 64
  msg ++ [128] ++ List.replicate zeros 0 ++ len64be (len * 8)

/-- SHA-256 digest (32 bytes) of a byte sequence. -/
def sha256 (msg : Bytes) : Bytes :=
  wordsToBytes ((chunk64 (sha256Pad msg)).foldl sha256Compress sha256H0)

/- ### HMAC-SHA256 (RFC 2104); any key length is accepted, which is why
`Hmac::<Sha256>::new_varkey` in the Rust code never returns an error. -/

/-- HMAC-SHA256 of `msg` under `key` (32 bytes). -/
def hmacSha256 (key msg : Bytes) : Bytes :=
  let k0 := if key.length > 64 then sha256 key else key
  let kp := k0 ++ List.replicate (64 - k0.length) 0
  let ipad := kp.map (bxor 0x36)
  let opad := kp.map (bxor 0x5c)
  sha256 (opad ++ sha256 (ipad ++ msg))

/- ### base64 (standard alphabet, as used by `base64::decode` /
`base64::encode_config(_, base64::STANDARD)`) -/

/-- Standard base64 alphabet value of a 6-bit group. -/
def b64Char (n : Nat) : Nat :=
  if n < 26 then 65 + n
  else if n < 52 then 97 + (n - 26)
  else if n < 62 then 48 + (n - 52)
  else if n = 62 then 43 else 47

/-- base64-encode with standard alphabet and `=` padding. -/
def base64Encode : Bytes → Bytes
  | a :: b :: c :: rest =>
    let n := a * 65536 + b * 256 + c
    b64Char (n / 262144) :: b64Char (n / 4096 % 64) :: b64Char (n / 64 % 64) ::
      b64Char (n % 64) :: base64Encode rest
  | [a, b] =>
    let n := a * 65536 + b * 256
    [b64Char (n / 262144), b64Char (n / 4096 % 64), b64Char (n / 64 % 64), 61]
  | [a] =>
    let n := a * 65536
    [b64Char (n / 262144), b64Char (n / 4096 % 64), 61, 61]
  | [] => []

/-- Value of one base64 alphabet byte, `none` for bytes outside the
standard alphabet. -/
def b64Val (c : Nat) : Option Nat :=
  if 65 ≤ c ∧ c ≤ 90 then some (c - 65)
  else if 97 ≤ c ∧ c ≤ 122 then some (c - 97 + 26)
  else if 48 ≤ c ∧ c ≤ 57 then some (c - 48 + 52)
  else if c = 43 then some 62
  else if c = 47 then some 63
  else none

/-- Decode a padding-free base64 body in 4-symbol groups; a trailing group
of 1 symbol and non-zero leftover bits are rejected, as `base64::decode`
does. -/
def b64DecodeCore : Bytes → Option Bytes
  | [] => some []
  | [_] => none
  | [c1, c2] => do
    let v1 ← b64Val c1
    let v2 ← b64Val c2
    if v2 % 16 = 0 then some [v1 * 4 + v2 / 16] else none
  | [c1, c2, c3] => do
    let v1 ← b64Val c1
    let v2 ← b64Val c2
    let v3 ← b64Val c3
    if v3 % 4 = 0 then some [v1 * 4 + v2 / 16, v2 % 16 * 16 + v3 / 4] else none
  | c1 :: c2 :: c3 :: c4 :: rest => do
    let v1 ← b64Val c1
    let v2 ← b64Val c2
    let v3 ← b64Val c3
    let v4 ← b64Val c4
    let tl ← b64DecodeCore rest
    some ([v1 * 4 + v2 / 16, v2 % 16 * 16 + v3 / 4, v3 % 4 * 64 + v4] ++ tl)

/-- Strip up to two `=` padding bytes from the end. -/
def stripB64Pad (v : Bytes) : Bytes :=
  let r := v.reverse
  match r with
  | 61 :: 61 :: rest => rest.reverse
  | 61 :: rest => rest.reverse
  | _ => v

/-- `base64::decode` with the standard alphabet: `none` models
`DecodeError`.  `=` is accepted only as one or two trailing bytes that
complete the final 4-symbol group (a 2-symbol body takes `==`, a
3-symbol body takes `=`); padding after a complete group, padding-only
input, or `=` anywhere else is a decode error, as in the crate. -/
def base64Decode (v : Bytes) : Option Bytes :=
  let core := stripB64Pad v
  if core.length = v.length then b64DecodeCore v
  else if core.length % 4 = 4 - (v.length - core.length) then b64DecodeCore core
  else none

/- ### application/x-www-form-urlencoded serialization
(`url::form_urlencoded::Serializer`) -/

/-- Bytes passed through unescaped by the form-urlencoded encode set:
ASCII alphanumerics and `*-._`. -/
def formByteAllowed (b : Nat) : Bool :=
  (48 ≤ b && b ≤ 57) || (65 ≤ b && b ≤ 90) || (97 ≤ b && b ≤ 122) ||
    b == 42 || b == 45 || b == 46 || b == 95

/-- Uppercase hex digit byte. -/
def hexDigitUpper (n : Nat) : Nat := if n < 10 then 48 + n else 55 + n

/-- Encode one byte: space becomes `+`, allowed bytes pass through,
everything else is `%XX` with uppercase hex. -/
def encodeFormByte (b : Nat) : Bytes :=
  if b = 32 then [43]
  else if formByteAllowed b then [b]
  else [37, hexDigitUpper (b / 16), hexDigitUpper (b % 16)]

/-- Percent-encode a full byte string for a form-urlencoded component. -/
def encodeForm (s : Bytes) : Bytes :=
  s.flatMap encodeFormByte

/-- `Serializer::append_pair`: prepend `&` unless the buffer is empty,
then `key=value`, both percent-encoded. -/
def appendPair (acc k v : Bytes) : Bytes :=
  acc ++ (if acc.isEmpty then [] else [38]) ++ encodeForm k ++ [61] ++ encodeForm v

/-- Errors surfaced by credential construction.  `encodingError` is the
boxed `base64::DecodeError`, `signingError` the boxed
`crypto_mac::InvalidKeyLength`, `invalidConnectionString` the
`std::io::Error` with `ErrorKind::InvalidInput` built in
`from_connection_string`. -/
inductive RError where
  | invalidConnectionString
  | encodingError
  | signingError
deriving DecidableEq, Repr

/-- Decimal bytes of an `i64`, as `format!` renders it. -/
def intBytes (i : Int) : Bytes := utf8 (toString i)

/-- `IoTHubService::generate_sas_token`, with `chrono::Utc::now()`
passed in as `now_seconds`.  `Hmac::<Sha256>::new_varkey` accepts keys
of any length, so the `signingError` path is unreachable. -/
def generate_sas_token (iothub_name private_key : Bytes)
    (expires_in_seconds now_seconds : Int) : Except RError Bytes :=
  let expiry_date_seconds : Int := now_seconds + expires_in_seconds
  let data : Bytes :=
    iothub_name ++ utf8 ".azure-devices.net" ++ [10] ++ intBytes expiry_date_seconds
  match base64Decode private_key with
  | none => .error .encodingError
  | some key =>
    let mac := hmacSha256 key data
    let sas_token := base64Encode mac
    let encoded :=
      appendPair
        (appendPair
          (appendPair
            (appendPair [] (utf8 "sr") (iothub_name ++ utf8 ".azure-devices.net"))
            (utf8 "sig") sas_token)
          (utf8 "skn") (utf8 "iothubowner"))
        (utf8 "se") (intBytes expiry_date_seconds)
    .ok (utf8 "SharedAccessSignature " ++ encoded)

/- ### Connection-string resolution (src/iothub.rs, `from_connection_string`) -/

/-- The service handle: hub name and the SAS token used as the
`Authorization` header value. -/
structure IoTHubService where
  iothub_name : Bytes
  sas_token : Bytes
deriving DecidableEq, Repr

/-- Outcome of `from_connection_string`: success, a returned boxed error,
or a Rust panic (raised by out-of-order string slicing). -/
inductive CSOut where
  | ok (svc : IoTHubService)
  | err (e : RError)
  | panicked
deriving DecidableEq, Repr

def hostLit : Bytes := utf8 "HostName="

def suffixLit : Bytes := utf8 ".azure-devices.net"

def sakLit : Bytes := utf8 "SharedAccessKey="

/-- One iteration of the field loop in `from_connection_string`.  The
state is `(iothub_name, primary_key)`; `none` as overall result models a
panic in `&val[start..end]`. -/
def processField (st : Option Bytes × Option Bytes) (val : Bytes) :
    Option (Option Bytes × Option Bytes) :=
  match findByte val 61 with
  | none => some st
  | some idx =>
    let start := idx + 1
    let afterHost : Option (Option Bytes × Option Bytes) :=
      if containsSub val hostLit then
        match findSub val suffixLit with
        | none => some st
        | some endPos =>
          match rustSlice val start endPos with
          | some name => some (some name, st.2)
          | none => none
      else some st
    match afterHost with
    | none => none
    | some st1 =>
      if containsSub val sakLit then
        match rustSlice val start val.length with
        | some key => some (st1.1, some key)
        | none => none
      else some st1

/-- `IoTHubService::from_connection_string` (with `chrono::Utc::now()` as
`now_seconds`).  Both the missing-hostname and the missing-key `match`
arms build a `std::io::Error` of kind `InvalidInput`, modelled as
`invalidConnectionString`. -/
def from_connection_string (connection_string : Bytes)
    (expires_in_seconds now_seconds : Int) : CSOut :=
  let parts := splitSemi connection_string
  if parts.length ≠ 3 then .err .invalidConnectionString
  else
    match parts.foldlM processField (none, none) with
    | none => .panicked
    | some (iothubName, primaryKey) =>
      match iothubName with
      | none => .err .invalidConnectionString
      | some matched_iothub_name =>
        match primaryKey with
        | none => .err .invalidConnectionString
        | some matched_primary_key =>
          match generate_sas_token matched_iothub_name matched_primary_key
              expires_in_seconds now_seconds with
          | .ok sas_token => .ok ⟨matched_iothub_name, sas_token⟩
          | .error e => .err e

/- ### JSON documents (serde_json::Value) -/

/-- Opaque JSON value; maps are association lists in insertion order. -/
inductive Json where
  | null
  | bool (b : Bool)
  | num (n : Int)
  | str (s : String)
  | arr (elems : List Json)
  | obj (fields : List (String × Json))

/-- Minimal JSON string escaping (quotes and backslashes). -/
def escapeJson (s : String) : String :=
  String.mk (s.data.flatMap fun c =>
    if c = '"' then ['\\', '"'] else if c = '\\' then ['\\', '\\'] else [c])

mutual

/-- Compact rendering, standing in for `serde_json::to_string`, which
never fails on a `serde_json::Value` (object keys are always strings). -/
def jsonRender : Json → String
  | .null => "null"
  | .bool b => if b then "true" else "false"
  | .num n => toString n
  | .str s => "\"" ++ escapeJson s ++ "\""
  | .arr elems => "[" ++ jsonRenderList elems ++ "]"
  | .obj fields => "\x7b" ++ jsonRenderFields fields ++ "\x7d"

def jsonRenderList : List Json → String
  | [] => ""
  | [j] => jsonRender j
  | j :: rest => jsonRender j ++ "," ++ jsonRenderList rest

def jsonRenderFields : List (String × Json) → String
  | [] => ""
  | [f] => "\"" ++ escapeJson f.1 ++ "\":" ++ jsonRender f.2
  | f :: rest => "\"" ++ escapeJson f.1 ++ "\":" ++ jsonRender f.2 ++ "," ++ jsonRenderFields rest

end

/-- Keys of a JSON object (empty for non-objects). -/
def Json.objKeys : Json → List String
  | .obj fields => fields.map (·.1)
  | _ => []

/- ### Association maps, modelling std HashMap lookup/insert semantics
(iteration order is irrelevant to every claim). -/

/-- `HashMap::insert`: replace the binding if the key is present,
otherwise add it. -/
def mapInsert {α : Type} (m : List (String × α)) (k : String) (v : α) :
    List (String × α) :=
  match m with
  | [] => [(k, v)]
  | (k0, v0) :: rest =>
    if k0 = k then (k0, v) :: rest else (k0, v0) :: mapInsert rest k v

/-- `HashMap::get`. -/
def mapLookup {α : Type} (m : List (String × α)) (k : String) : Option α :=
  match m with
  | [] => none
  | (k0, v0) :: rest => if k0 = k then some v0 else mapLookup rest k

/- ### Edge deployment manifest (src/configuration/modulescontent.rs) -/

def SCHEMA_VERSION : String := "1.0"

def RUNTIME_TYPE : String := "docker"

/-- Module status (`Status` in modulescontent.rs). -/
inductive CfgStatus where
  | running
  | stopped
deriving DecidableEq, Repr

/-- Module restart policy. -/
inductive CfgRestartPolicy where
  | never
  | onFailure
  | onUnhealthy
  | always
deriving DecidableEq, Repr

/-- Module image pull policy. -/
inductive CfgImagePullPolicy where
  | onCreate
  | never
deriving DecidableEq, Repr

/-- `ModuleSettings`: image plus stringified create options. -/
structure ModuleSettings where
  image : String
  create_options : Option String
deriving DecidableEq, Repr

/-- `EdgeModule`: a user module of the deployment
(`EnvironmentVariable` wrappers are modelled by their `value` string). -/
structure EdgeModule where
  module_id : String
  version : String
  module_type : String
  status : CfgStatus
  restart_policy : CfgRestartPolicy
  image_pull_policy : Option CfgImagePullPolicy
  env : List (String × String)
  settings : ModuleSettings
deriving DecidableEq, Repr

/-- `RegistryCredential`. -/
structure RegistryCredential where
  username : String
  password : String
  address : String
deriving DecidableEq, Repr

/-- `RuntimeSettings` of the Edge Agent. -/
structure RuntimeSettings where
  min_docker_version : String
  logging_options : Option String
  registry_credentials : List (String × RegistryCredential)
deriving DecidableEq, Repr

/-- `Runtime`. -/
structure Runtime where
  settings : RuntimeSettings
  runtime_type : String
deriving DecidableEq, Repr

/-- `EdgeAgentSettings` system module. -/
structure EdgeAgentSettings where
  runtime_type : String
  settings : ModuleSettings
  env : List (String × String)
deriving DecidableEq, Repr

/-- `EdgeHubSettings` system module. -/
structure EdgeHubSettings where
  runtime_type : String
  restart_policy : CfgRestartPolicy
  status : CfgStatus
  settings : ModuleSettings
  env : List (String × String)
deriving DecidableEq, Repr

/-- `SystemModules`. -/
structure SystemModules where
  edge_hub : EdgeHubSettings
  edge_agent : EdgeAgentSettings
deriving DecidableEq, Repr

/-- `EdgeAgent` section of the manifest. -/
structure EdgeAgent where
  schema_version : String
  runtime : Runtime
  system_modules : SystemModules
  modules : List (String × EdgeModule)
deriving DecidableEq, Repr

/-- `StoreAndForwardConfiguration`. -/
structure StoreAndForwardConfiguration where
  time_to_live_secs : Nat
deriving DecidableEq, Repr

/-- `EdgeHub` section of the manifest. -/
structure EdgeHub where
  schema_version : String
  routes : List (String × String)
  store_and_forward_configuration : StoreAndForwardConfiguration
deriving DecidableEq, Repr

/-- `ModulesContent`: the complete deployment manifest. -/
structure ModulesContent where
  edge_agent : EdgeAgent
  edge_hub : EdgeHub
deriving DecidableEq, Repr

/-- Builder validation error (`BuilderErrorType` in error.rs). -/
inductive BuilderErrorType where
  | missingValue (name : String)
  | incorrectValue (name : String)
deriving DecidableEq, Repr

/-- `BuilderError` wraps the error type. -/
structure BuilderError where
  error_type : BuilderErrorType
deriving DecidableEq, Repr

/-- `ModulesContentBuilder` accumulation state (u64 is modelled by Nat). -/
structure ModulesContentBuilder where
  minimum_docker_version : Option String := none
  logging_options : Option Json := none
  registry_credentials : List (String × RegistryCredential) := []
  edge_agent_env : List (String × String) := []
  edge_hub_env : List (String × String) := []
  edge_agent_image : Option String := none
  edge_hub_image : Option String := none
  edge_agent_create_options : Option Json := none
  edge_hub_create_options : Option Json := none
  modules : List (String × EdgeModule) := []
  routes : List (String × String) := []
  time_to_live_secs : Option Nat := none

/-- `ModulesContentBuilder::new` (`Default::default`). -/
def ModulesContentBuilder.new : ModulesContentBuilder := {}

/-- Setter `minimum_docker_version` (named `set_` here because the Lean
field projection takes the Rust method's name). -/
def ModulesContentBuilder.set_minimum_docker_version
    (self : ModulesContentBuilder) (version : String) : ModulesContentBuilder :=
  { self with minimum_docker_version := some version }

/-- Setter `logging_options`. -/
def ModulesContentBuilder.set_logging_options
    (self : ModulesContentBuilder) (loggingOptions : Json) : ModulesContentBuilder :=
  { self with logging_options := some loggingOptions }

/-- `registry_credential`: inserts under the caller-chosen name. -/
def ModulesContentBuilder.registry_credential (self : ModulesContentBuilder)
    (name username password address : String) : ModulesContentBuilder :=
  { self with registry_credentials :=
      mapInsert self.registry_credentials name ⟨username, password, address⟩ }

/-- `route`: inserts a named route. -/
def ModulesContentBuilder.route (self : ModulesContentBuilder)
    (name routeValue : String) : ModulesContentBuilder :=
  { self with routes := mapInsert self.routes name routeValue }

/-- Setter `time_to_live_secs`. -/
def ModulesContentBuilder.set_time_to_live_secs
    (self : ModulesContentBuilder) (seconds : Nat) : ModulesContentBuilder :=
  { self with time_to_live_secs := some seconds }

/-- Setter `edge_agent_image`. -/
def ModulesContentBuilder.set_edge_agent_image
    (self : ModulesContentBuilder) (image : String) : ModulesContentBuilder :=
  { self with edge_agent_image := some image }

/-- Setter `edge_hub_image`. -/
def ModulesContentBuilder.set_edge_hub_image
    (self : ModulesContentBuilder) (image : String) : ModulesContentBuilder :=
  { self with edge_hub_image := some image }

/-- Setter `edge_agent_create_options`. -/
def ModulesContentBuilder.set_edge_agent_create_options
    (self : ModulesContentBuilder) (createOptions : Json) : ModulesContentBuilder :=
  { self with edge_agent_create_options := some createOptions }

/-- Setter `edge_hub_create_options`. -/
def ModulesContentBuilder.set_edge_hub_create_options
    (self : ModulesContentBuilder) (createOptions : Json) : ModulesContentBuilder :=
  { self with edge_hub_create_options := some createOptions }

/-- `edge_agent_env`: inserts an Edge Agent environment variable. -/
def ModulesContentBuilder.add_edge_agent_env (self : ModulesContentBuilder)
    (key value : String) : ModulesContentBuilder :=
  { self with edge_agent_env := mapInsert self.edge_agent_env key value }

/-- `edge_hub_env`: inserts an Edge Hub environment variable. -/
def ModulesContentBuilder.add_edge_hub_env (self : ModulesContentBuilder)
    (key value : String) : ModulesContentBuilder :=
  { self with edge_hub_env := mapInsert self.edge_hub_env key value }

/-- `edge_module`: `self.modules.insert(edge_module.module_id.clone(), edge_module)`. -/
def ModulesContentBuilder.edge_module (self : ModulesContentBuilder)
    (edgeModule : EdgeModule) : ModulesContentBuilder :=
  { self with modules := mapInsert self.modules edgeModule.module_id edgeModule }

/-- `ModulesContentBuilder::build`, with the `?`/`ok_or` chain in source
order: `time_to_live_secs`, `logging_options`, `minimum_docker_version`,
`edge_hub_image`, `edge_agent_image`, then the create options.
`serde_json::to_string` on a `Value` cannot fail, so the
`IncorrectValue` early returns are unreachable and the serializations
are the plain `jsonRender`. -/
def ModulesContentBuilder.build (self : ModulesContentBuilder) :
    Except BuilderError ModulesContent :=
  match self.time_to_live_secs with
  | none => .error ⟨.missingValue "time_to_live_secs"⟩
  | some timeToLiveSecs =>
    let loggingOptions := self.logging_options.map jsonRender
    match self.minimum_docker_version with
    | none => .error ⟨.missingValue "minimum_docker_version"⟩
    | some minimumDockerVersion =>
      match self.edge_hub_image with
      | none => .error ⟨.missingValue "edge_hub_image"⟩
      | some edgehubImage =>
        match self.edge_agent_image with
        | none => .error ⟨.missingValue "edge_agent_image"⟩
        | some edgeagentImage =>
          let edgeagentCreateOptions := self.edge_agent_create_options.map jsonRender
          let edgehubCreateOptions := self.edge_hub_create_options.map jsonRender
          .ok
            { edge_agent :=
                { schema_version := SCHEMA_VERSION
                  runtime :=
                    { settings :=
                        { min_docker_version := minimumDockerVersion
                          logging_options := loggingOptions
                          registry_credentials := self.registry_credentials }
                      runtime_type := RUNTIME_TYPE }
                  system_modules :=
                    { edge_agent :=
                        { runtime_type := RUNTIME_TYPE
                          settings :=
                            { create_options := edgeagentCreateOptions
                              image := edgeagentImage }
                          env := self.edge_agent_env }
                      edge_hub :=
                        { settings :=
                            { image := edgehubImage
                              create_options := edgehubCreateOptions }
                          runtime_type := RUNTIME_TYPE
                          restart_policy := .always
                          status := .running
                          env := self.edge_hub_env } }
                  modules := self.modules }
              edge_hub :=
                { schema_version := SCHEMA_VERSION
                  routes := self.routes
                  store_and_forward_configuration :=
                    { time_to_live_secs := timeToLiveSecs } } }

/- ### Twin patch builder (src/twin.rs) -/

/-- `DesiredTwin`: the JSON document sent by twin PATCH/PUT calls. -/
structure DesiredTwin where
  contents : Json

/-- `DesiredTwinBuilder` accumulation state. -/
structure DesiredTwinBuilder where
  desired_properties : Option Json := none
  desired_tags : List (String × String) := []

/-- `DesiredTwinBuilder::new`. -/
def DesiredTwinBuilder.new : DesiredTwinBuilder := {}

/-- `add_tag`. -/
def DesiredTwinBuilder.add_tag (self : DesiredTwinBuilder)
    (tagName tagValue : String) : DesiredTwinBuilder :=
  { self with desired_tags := mapInsert self.desired_tags tagName tagValue }

/-- `properties` (the fluent setter). -/
def DesiredTwinBuilder.set_properties (self : DesiredTwinBuilder)
    (desiredProperties : Json) : DesiredTwinBuilder :=
  { self with desired_properties := some desiredProperties }

/-- `DesiredTwinBuilder::build`: note the outer key is spelled
`propeties` in the source. -/
def DesiredTwinBuilder.build (self : DesiredTwinBuilder) : DesiredTwin :=
  ⟨Json.obj
    [("propeties", Json.obj [("desired", self.desired_properties.getD (Json.obj []))]),
     ("tags", Json.obj (self.desired_tags.map fun p => (p.1, Json.str p.2)))]⟩

/- ### Direct methods (src/directmethod.rs) -/

/-- `DirectMethod` (the `iothub_service` back-reference carries no data
relevant to the request body and is omitted; u64 is modelled by Nat). -/
structure DirectMethod where
  device_id : String
  module_id : Option String
  method_name : String
  connect_time_out : Nat
  response_time_out : Nat
deriving DecidableEq, Repr

/-- `DirectMethod::new`: the fifth parameter is `response_time_out`, the
sixth `connect_time_out`, each assigned to the field of the same name. -/
def DirectMethod.new (deviceId : String) (moduleId : Option String)
    (methodName : String) (responseTimeOut connectTimeOut : Nat) : DirectMethod :=
  { device_id := deviceId
    module_id := moduleId
    method_name := methodName
    connect_time_out := connectTimeOut
    response_time_out := responseTimeOut }

/-- `IoTHubService::create_device_method`, translated positionally: the
Rust call passes `connect_time_out` as the fifth argument of
`DirectMethod::new` and `response_time_out` as the sixth. -/
def create_device_method (deviceId methodName : String)
    (responseTimeOut connectTimeOut : Nat) : DirectMethod :=
  DirectMethod.new deviceId none methodName connectTimeOut responseTimeOut

/-- `IoTHubService::create_module_method`, with the same positional
argument order as `create_device_method`. -/
def create_module_method (deviceId moduleId methodName : String)
    (responseTimeOut connectTimeOut : Nat) : DirectMethod :=
  DirectMethod.new deviceId (some moduleId) methodName connectTimeOut responseTimeOut

/-- The `json!` body built in `DirectMethod::invoke_method`. -/
def DirectMethod.request_body (self : DirectMethod) (payload : Json) : Json :=
  Json.obj
    [("connectTimeoutInSeconds", Json.num self.connect_time_out),
     ("methodName", Json.str self.method_name),
     ("payload", payload),
     ("responseTimeoutInSeconds", Json.num self.response_time_out)]

/- ### Response handling of `apply_modules_configuration` (src/iothub.rs) -/

/-- The post-request logic of `IoTHubService::apply_modules_configuration`,
given the response status code and the body (`none` models a body whose
`read_to_string` fails, which the `?` operator propagates).  The
condition `status_code != OK || status_code != NO_CONTENT` is the one
written in the source; the string read into `error_payload` is dropped. -/
def apply_modules_configuration_handle (statusCode : Nat)
    (bodyRead : Option String) : Except String Unit :=
  if statusCode != 200 || statusCode != 204 then
    match bodyRead with
    | some _ => Except.ok ()
    | none => Except.error "read failure"
  else Except.ok ()

/- ### Derived definitions used by the statements below -/

/-- Condition under which the field loop of `from_connection_string`
panics: the field holds an `=`, the `HostName=` branch fires, and the
first `.azure-devices.net` occurrence ends before the slice start. -/
def panicsOn (f : Bytes) : Bool :=
  match findByte f 61 with
  | none => false
  | some idx =>
    if containsSub f hostLit then
      match findSub f suffixLit with
      | none => false
      | some endPos => decide (endPos < idx + 1)
    else false

/-- A canonical `HostName=<name>.azure-devices.net` field. -/
def hostField (n : Bytes) : Bytes := utf8 "HostName=" ++ (n ++ utf8 ".azure-devices.net")

/-- A canonical `SharedAccessKeyName=<key name>` field. -/
def keyNameField (kn : Bytes) : Bytes := utf8 "SharedAccessKeyName=" ++ kn

/-- A canonical `SharedAccessKey=<key>` field. -/
def keyField (k : Bytes) : Bytes := utf8 "SharedAccessKey=" ++ k

/-- Hub name of a successful resolution, `none` on error or panic. -/
def csOutName : CSOut → Option Bytes
  | .ok svc => some svc.iothub_name
  | _ => none

/-- Fold a sequence of `edge_module` calls over a builder. -/
def add_edge_modules (b : ModulesContentBuilder) (ms : List EdgeModule) :
    ModulesContentBuilder :=
  ms.foldl ModulesContentBuilder.edge_module b

/-- Placeholder manifest (never observed: used only as the fallback of a
total projection out of `Except`). -/
def emptyModulesContent : ModulesContent :=
  { edge_agent :=
      { schema_version := ""
        runtime :=
          { settings :=
              { min_docker_version := "", logging_options := none, registry_credentials := [] }
            runtime_type := "" }
        system_modules :=
          { edge_agent := { runtime_type := "", settings := { image := "", create_options := none }, env := [] }
            edge_hub :=
              { runtime_type := "", restart_policy := .never, status := .stopped
                settings := { image := "", create_options := none }, env := [] } }
        modules := [] }
    edge_hub :=
      { schema_version := ""
        routes := []
        store_and_forward_configuration := { time_to_live_secs := 0 } } }

/-- Example user module `"A"`, version 1. -/
def exampleModuleA : EdgeModule :=
  { module_id := "A", version := "1.0", module_type := "docker", status := .running
    restart_policy := .always, image_pull_policy := none, env := []
    settings := { image := "a-image:1", create_options := none } }

/-- Example user module `"B"`. -/
def exampleModuleB : EdgeModule :=
  { module_id := "B", version := "1.0", module_type := "docker", status := .stopped
    restart_policy := .onFailure, image_pull_policy := some .never, env := [("X", "1")]
    settings := { image := "b-image:1", create_options := none } }

/-- A second module with id `"A"`, added after `exampleModuleA`. -/
def exampleModuleA2 : EdgeModule :=
  { module_id := "A", version := "2.0", module_type := "docker", status := .running
    restart_policy := .never, image_pull_policy := none, env := []
    settings := { image := "a-image:2", create_options := none } }

/-- Builder of the duplicate-id example: required fields filled, then
`edge_module` called with A, B, and A again (new version). -/
def exampleModulesBuilder : ModulesContentBuilder :=
  add_edge_modules
    ((((ModulesContentBuilder.new.set_time_to_live_secs 10).set_minimum_docker_version
        "v1.25").set_edge_hub_image "hub:1.0").set_edge_agent_image "img:1.0")
    [exampleModuleA, exampleModuleB, exampleModuleA2]

/-- The manifest the duplicate-id example builds. -/
def exampleModulesContent : ModulesContent :=
  match exampleModulesBuilder.build with
  | .ok mc => mc
  | .error _ => emptyModulesContent

/- ### Helper lemmas -/

theorem startsWithL_append_self (p r : Bytes) : startsWithL (p ++ r) p = true := by
  induction p with
  | nil => cases r <;> rfl
  | cons b p ih => simpa [startsWithL] using ih

theorem containsSub_append_self (p r : Bytes) : containsSub (p ++ r) p = true := by
  have h := startsWithL_append_self p r
  unfold containsSub findSub
  simp [h]

theorem findSub_le_length (v pat : Bytes) (i : Nat) (h : findSub v pat = some i) :
    i ≤ v.length := by
  induction v generalizing i with
  | nil =>
    unfold findSub at h
    split at h
    · cases h
      exact Nat.le_refl 0
    · simp at h
  | cons b v ih =>
    unfold findSub at h
    split at h
    · cases h
      exact Nat.zero_le _
    · obtain ⟨j, hj, hji⟩ := Option.map_eq_some'.mp h
      subst hji
      have := ih j hj
      simp only [List.length_cons]
      omega

theorem findByte_lt_length (v : Bytes) (c i : Nat) (h : findByte v c = some i) :
    i < v.length := by
  induction v generalizing i with
  | nil => simp [findByte] at h
  | cons b v ih =>
    simp only [findByte] at h
    split at h
    · cases h
      simp
    · obtain ⟨j, hj, hji⟩ := Option.map_eq_some'.mp h
      subst hji
      have := ih j hj
      simp only [List.length_cons]
      omega

theorem findByte_append (p r : Bytes) (c : Nat) :
    findByte (p ++ r) c =
      match findByte p c with
      | some i => some i
      | none => (findByte r c).map (· + p.length) := by
  induction p with
  | nil => cases h : findByte r c <;> simp [findByte, h]
  | cons b p ih =>
    simp only [List.cons_append, findByte, List.append_eq]
    by_cases hb : b = c
    · simp [hb]
    · rw [if_neg hb, if_neg hb, ih]
      cases hp : findByte p c with
      | some i => simp
      | none =>
        cases hr : findByte r c with
        | some j => simp [Function.comp, Nat.add_assoc]
        | none => simp

theorem splitSemi_ne_nil (v : Bytes) : splitSemi v ≠ [] := by
  cases v with
  | nil => simp [splitSemi]
  | cons b rest =>
    unfold splitSemi
    by_cases hb : b = 59
    · simp [hb]
    · simp only [if_neg hb]
      cases splitSemi rest <;> simp

theorem splitSemi_sep (a b : Bytes) (ha : ¬ 59 ∈ a) :
    splitSemi (a ++ 59 :: b) = a :: splitSemi b := by
  induction a with
  | nil => simp [splitSemi]
  | cons x a ih =>
    have hx : x ≠ 59 := by
      intro hx
      exact ha (by simp [hx])
    have ha2 : ¬ 59 ∈ a := fun h => ha (by simp [h])
    simp only [List.cons_append]
    conv_lhs => unfold splitSemi
    rw [if_neg hx, ih ha2]

theorem splitSemi_nosep (a : Bytes) (ha : ¬ 59 ∈ a) : splitSemi a = [a] := by
  induction a with
  | nil => rfl
  | cons x a ih =>
    have hx : x ≠ 59 := by
      intro hx
      exact ha (by simp [hx])
    have ha2 : ¬ 59 ∈ a := fun h => ha (by simp [h])
    unfold splitSemi
    rw [if_neg hx, ih ha2]

theorem findOpt_append {α : Type} (p : α → Bool) (l1 l2 : List α) :
    (l1 ++ l2).find? p =
      match l1.find? p with
      | some x => some x
      | none => l2.find? p := by
  induction l1 with
  | nil => simp
  | cons x l1 ih =>
    by_cases hx : p x = true
    · simp [List.find?, hx]
    · simp only [List.cons_append, List.find?, hx, List.append_eq]
      rw [ih]

theorem mapLookup_insert {α : Type} (m : List (String × α)) (k q : String) (v : α) :
    mapLookup (mapInsert m k v) q = if q = k then some v else mapLookup m q := by
  induction m with
  | nil =>
    by_cases hq : q = k
    · simp [mapInsert, mapLookup, hq]
    · have hq2 : ¬ k = q := fun h => hq h.symm
      simp [mapInsert, mapLookup, hq, hq2]
  | cons kv m ih =>
    obtain ⟨k0, v0⟩ := kv
    by_cases h0 : k0 = k
    · subst h0
      by_cases hq : q = k0
      · simp [mapInsert, mapLookup, hq]
      · have hq2 : ¬ k0 = q := fun h => hq h.symm
        simp [mapInsert, mapLookup, hq, hq2]
    · by_cases hq : k0 = q
      · subst hq
        simp [mapInsert, mapLookup, h0]
      · simp [mapInsert, mapLookup, h0, hq, ih]

theorem processField_no_panic (f : Bytes) (st : Option Bytes × Option Bytes)
    (hnp : panicsOn f = false) :
    ∃ st1, processField st f = some st1 ∧
      ((containsSub f hostLit && containsSub f suffixLit) = false → st1.1 = st.1) ∧
      (containsSub f sakLit = false → st1.2 = st.2) := by
  unfold processField
  cases hfb : findByte f 61 with
  | none => exact ⟨st, rfl, fun _ => rfl, fun _ => rfl⟩
  | some idx =>
    have hidx := findByte_lt_length f 61 idx hfb
    have hkeySlice : rustSlice f (idx + 1) f.length =
        some ((f.drop (idx + 1)).take (f.length - (idx + 1))) := by
      unfold rustSlice
      rw [if_pos ⟨by omega, Nat.le_refl _⟩]
    by_cases hch : containsSub f hostLit = true
    · cases hfs : findSub f suffixLit with
      | none =>
        have hcs : containsSub f suffixLit = false := by simp [containsSub, hfs]
        by_cases hsak : containsSub f sakLit = true
        · refine ⟨(st.1, some ((f.drop (idx + 1)).take (f.length - (idx + 1)))), ?_, ?_, ?_⟩
          · simp [hch, hfs, hsak, hkeySlice]
          · intro _
            rfl
          · intro hc
            rw [hc] at hsak
            cases hsak
        · refine ⟨st, ?_, fun _ => rfl, fun _ => rfl⟩
          simp [hch, hfs, hsak]
      | some endPos =>
        have hnp2 : ¬ endPos < idx + 1 := by
          unfold panicsOn at hnp
          rw [hfb] at hnp
          simp [hch, hfs] at hnp
          omega
        have hend := findSub_le_length f suffixLit endPos hfs
        have hslice : rustSlice f (idx + 1) endPos =
            some ((f.drop (idx + 1)).take (endPos - (idx + 1))) := by
          unfold rustSlice
          rw [if_pos ⟨by omega, hend⟩]
        have hsuf2 : containsSub f suffixLit = true := by simp [containsSub, hfs]
        have hcs : (containsSub f hostLit && containsSub f suffixLit) = true := by
          rw [hch, hsuf2]
          rfl
        by_cases hsak : containsSub f sakLit = true
        · refine ⟨(some ((f.drop (idx + 1)).take (endPos - (idx + 1))),
              some ((f.drop (idx + 1)).take (f.length - (idx + 1)))), ?_, ?_, ?_⟩
          · simp [hch, hfs, hslice, hsak, hkeySlice]
          · intro hc
            rw [hcs] at hc
            cases hc
          · intro hc
            rw [hc] at hsak
            cases hsak
        · refine ⟨(some ((f.drop (idx + 1)).take (endPos - (idx + 1))), st.2), ?_, ?_, ?_⟩
          · simp [hch, hfs, hslice, hsak]
          · intro hc
            rw [hcs] at hc
            cases hc
          · intro _
            rfl
    · by_cases hsak : containsSub f sakLit = true
      · refine ⟨(st.1, some ((f.drop (idx + 1)).take (f.length - (idx + 1)))), ?_, ?_, ?_⟩
        · simp [hch, hsak, hkeySlice]
        · intro _
          rfl
        · intro hc
          rw [hc] at hsak
          cases hsak
      · refine ⟨st, ?_, fun _ => rfl, fun _ => rfl⟩
        simp [hch, hsak]

theorem foldFields_no_panic (fs : List Bytes) :
    ∀ st : Option Bytes × Option Bytes,
      (fs.all fun f => !panicsOn f) = true →
      ∃ st1, fs.foldlM processField st = some st1 ∧
        (st.1 = none →
          (fs.all fun f => !(containsSub f hostLit && containsSub f suffixLit)) = true →
          st1.1 = none) ∧
        (st.2 = none → (fs.all fun f => !containsSub f sakLit) = true → st1.2 = none) := by
  induction fs with
  | nil => exact fun st _ => ⟨st, rfl, fun h _ => h, fun h _ => h⟩
  | cons f fs ih =>
    intro st hall
    simp only [List.all_cons, Bool.and_eq_true, Bool.not_eq_true'] at hall
    obtain ⟨hf, hrest⟩ := hall
    obtain ⟨st1, hst1, hname1, hkey1⟩ := processField_no_panic f st hf
    obtain ⟨st2, hst2, hname2, hkey2⟩ := ih st1 hrest
    refine ⟨st2, ?_, ?_, ?_⟩
    · simp [List.foldlM_cons, hst1, hst2]
    · intro h1 h2
      simp only [List.all_cons, Bool.and_eq_true, Bool.not_eq_true'] at h2
      exact hname2 ((hname1 h2.1).trans h1) h2.2
    · intro h1 h2
      simp only [List.all_cons, Bool.and_eq_true, Bool.not_eq_true'] at h2
      exact hkey2 ((hkey1 h2.1).trans h1) h2.2

/-- C3 (amended): `from_connection_string` fails with
`InvalidConnectionString` whenever the semicolon split has other than 3
fields, and for every 3-field string with no `SharedAccessKey=` field or
no field containing both `HostName=` and `.azure-devices.net` — provided
no field triggers the out-of-order slice panic (a field whose first
`.azure-devices.net` occurrence starts before the end of its first `=`). -/
theorem from_connection_string_invalid (cs : Bytes) (ttl now : Int)
    (h : (splitSemi cs).length ≠ 3 ∨
      (((splitSemi cs).all fun f => !panicsOn f) = true ∧
        (((splitSemi cs).all fun f => !containsSub f sakLit) = true ∨
         ((splitSemi cs).all fun f =>
            !(containsSub f hostLit && containsSub f suffixLit)) = true))) :
    from_connection_string cs ttl now = .err .invalidConnectionString := by
  unfold from_connection_string
  by_cases hlen : (splitSemi cs).length ≠ 3
  · simp [hlen]
  · rcases h with h | ⟨hnp, hmiss⟩
    · exact absurd h hlen
    · simp only [hlen, if_false]
      obtain ⟨st1, hfold, hname, hkey⟩ := foldFields_no_panic (splitSemi cs) (none, none) hnp
      rw [hfold]
      rcases hmiss with hm | hm
      · have h2 := hkey rfl hm
        obtain ⟨a, b⟩ := st1
        simp only at h2
        subst h2
        cases a <;> simp
      · have h1 := hname rfl hm
        obtain ⟨a, b⟩ := st1
        simp only at h1
        subst h1
        simp

/-- Counterexample to C3 as stated: a 3-field connection string with no
`SharedAccessKey=` field on which the code panics (the first field puts
`.azure-devices.net` before its first `=`), instead of failing with
`InvalidConnectionString`. -/
theorem from_connection_string_panic_counterexample :
    (splitSemi (utf8 ".azure-devices.netHostName=x;a;b")).length = 3 ∧
    ((splitSemi (utf8 ".azure-devices.netHostName=x;a;b")).all
      fun f => !containsSub f sakLit) = true ∧
    from_connection_string (utf8 ".azure-devices.netHostName=x;a;b") 3600 0 = .panicked :=
  ⟨by decide, by decide, by decide⟩

/-- Witness for the amended C3: a 3-field string with a well-formed
hostname but no `SharedAccessKey=` field is rejected. -/
theorem from_connection_string_invalid_witness :
    from_connection_string
      (utf8 "HostName=cool-iot-hub.azure-devices.net;SharedAccessKeyName=iothubowner;Foo=bar")
      3600 0 = .err .invalidConnectionString :=
  from_connection_string_invalid _ 3600 0 (Or.inr ⟨by decide, Or.inl (by decide)⟩)

theorem processField_hostField (n : Bytes) (st : Option Bytes × Option Bytes)
    (hsuf : findSub (hostField n) suffixLit = some (9 + n.length))
    (hsak : containsSub (hostField n) sakLit = false) :
    processField st (hostField n) = some (some n, st.2) := by
  have hfb : findByte (hostField n) 61 = some 8 := by
    have h0 : findByte (utf8 "HostName=") 61 = some 8 := by decide
    unfold hostField
    rw [findByte_append, h0]
  have hch : containsSub (hostField n) hostLit = true := by
    unfold hostField hostLit
    exact containsSub_append_self _ _
  have hlen9 : (utf8 "HostName=").length = 9 := by decide
  have hlen18 : (utf8 ".azure-devices.net").length = 18 := by decide
  have hlen : (hostField n).length = 9 + (n.length + 18) := by
    unfold hostField
    rw [List.length_append, List.length_append, hlen9, hlen18]
  have hslice : rustSlice (hostField n) 9 (9 + n.length) = some n := by
    unfold rustSlice
    rw [if_pos ⟨by omega, by rw [hlen]; omega⟩]
    have hdrop : (hostField n).drop 9 = n ++ utf8 ".azure-devices.net" := by
      unfold hostField
      rw [← hlen9, List.drop_left]
    rw [hdrop]
    have : 9 + n.length - 9 = n.length := by omega
    rw [this, List.take_left]
  unfold processField
  rw [hfb]
  simp [hch, hsuf, hsak, hslice]

theorem processField_keyNameField (kn : Bytes) (st : Option Bytes × Option Bytes)
    (h1 : containsSub (keyNameField kn) hostLit = false)
    (h2 : containsSub (keyNameField kn) sakLit = false) :
    processField st (keyNameField kn) = some st := by
  unfold processField
  cases hfb : findByte (keyNameField kn) 61 with
  | none => rfl
  | some idx => simp [h1, h2]

theorem processField_keyField (k : Bytes) (st : Option Bytes × Option Bytes)
    (h3 : containsSub (keyField k) hostLit = false) :
    processField st (keyField k) = some (st.1, some k) := by
  have hfb : findByte (keyField k) 61 = some 15 := by
    have h0 : findByte (utf8 "SharedAccessKey=") 61 = some 15 := by decide
    unfold keyField
    rw [findByte_append, h0]
  have hsak : containsSub (keyField k) sakLit = true := by
    unfold keyField sakLit
    exact containsSub_append_self _ _
  have hlen16 : (utf8 "SharedAccessKey=").length = 16 := by decide
  have hlen : (keyField k).length = 16 + k.length := by
    unfold keyField
    rw [List.length_append, hlen16]
  have hslice : rustSlice (keyField k) 16 (keyField k).length = some k := by
    unfold rustSlice
    rw [if_pos ⟨by rw [hlen]; omega, Nat.le_refl _⟩]
    have hdrop : (keyField k).drop 16 = k := by
      unfold keyField
      rw [← hlen16, List.drop_left]
    rw [hdrop, hlen]
    have : 16 + k.length - 16 = k.length := by omega
    rw [this, List.take_length]
  unfold processField
  rw [hfb]
  simp [h3, hsak, hslice]

theorem foldFields_three (n kn k : Bytes)
    (hsuf : findSub (hostField n) suffixLit = some (9 + n.length))
    (hsak4 : containsSub (hostField n) sakLit = false)
    (h1 : containsSub (keyNameField kn) hostLit = false)
    (h2 : containsSub (keyNameField kn) sakLit = false)
    (h3 : containsSub (keyField k) hostLit = false) :
    ∀ (fs : List Bytes) (st : Option Bytes × Option Bytes),
      (∀ f ∈ fs, f = hostField n ∨ f = keyNameField kn ∨ f = keyField k) →
      fs.foldlM processField st =
        some ((if hostField n ∈ fs then some n else st.1),
              (if keyField k ∈ fs then some k else st.2)) := by
  have hchost : containsSub (hostField n) hostLit = true := by
    unfold hostField hostLit
    exact containsSub_append_self _ _
  have hcksak : containsSub (keyField k) sakLit = true := by
    unfold keyField sakLit
    exact containsSub_append_self _ _
  have hneHostKeyName : hostField n ≠ keyNameField kn := by
    intro he
    rw [he] at hchost
    rw [h1] at hchost
    simp at hchost
  have hneHostKey : hostField n ≠ keyField k := by
    intro he
    rw [he] at hchost
    rw [h3] at hchost
    simp at hchost
  have hneKeyNameKey : keyNameField kn ≠ keyField k := by
    intro he
    rw [he] at h2
    rw [hcksak] at h2
    simp at h2
  intro fs
  induction fs with
  | nil =>
    intro st _
    simp
  | cons f fs ih =>
    intro st hmem
    have hf := hmem f (List.mem_cons_self f fs)
    have hrest : ∀ g ∈ fs, g = hostField n ∨ g = keyNameField kn ∨ g = keyField k :=
      fun g hg => hmem g (List.mem_cons_of_mem f hg)
    rcases hf with hf | hf | hf
    · subst hf
      have step : List.foldlM processField st (hostField n :: fs) =
          List.foldlM processField ((some n : Option Bytes), st.2) fs := by
        rw [List.foldlM_cons, processField_hostField n st hsuf hsak4]
        rfl
      rw [step, ih _ hrest]
      have e2 : (keyField k ∈ hostField n :: fs) ↔ (keyField k ∈ fs) := by
        simp [List.mem_cons, Ne.symm hneHostKey]
      simp [e2]
    · subst hf
      have step : List.foldlM processField st (keyNameField kn :: fs) =
          List.foldlM processField st fs := by
        rw [List.foldlM_cons, processField_keyNameField kn st h1 h2]
        rfl
      rw [step, ih _ hrest]
      have e1 : (hostField n ∈ keyNameField kn :: fs) ↔ (hostField n ∈ fs) := by
        simp [List.mem_cons, hneHostKeyName]
      have e2 : (keyField k ∈ keyNameField kn :: fs) ↔ (keyField k ∈ fs) := by
        simp [List.mem_cons, Ne.symm hneKeyNameKey]
      simp [e1, e2]
    · subst hf
      have step : List.foldlM processField st (keyField k :: fs) =
          List.foldlM processField (st.1, (some k : Option Bytes)) fs := by
        rw [List.foldlM_cons, processField_keyField k st h3]
        rfl
      rw [step, ih _ hrest]
      have e1 : (hostField n ∈ keyField k :: fs) ↔ (hostField n ∈ fs) := by
        simp [List.mem_cons, hneHostKey]
      simp [e1]

/-- C4: for a well-formed 3-field connection string — a
`HostName=<n>.azure-devices.net` field, a `SharedAccessKeyName=` field
and a `SharedAccessKey=<k>` field in any order, where the marker
substrings occur only where intended and no field contains `;` — the
resolver extracts the name between `HostName=` and `.azure-devices.net`
and the key after `SharedAccessKey=`, and delegates to the SAS signer. -/
theorem from_connection_string_well_formed
    (n kn k : Bytes) (f1 f2 f3 : Bytes) (ttl now : Int)
    (hn59 : ¬ 59 ∈ n) (hkn59 : ¬ 59 ∈ kn) (hk59 : ¬ 59 ∈ k)
    (hsuf : findSub (hostField n) suffixLit = some (9 + n.length))
    (hsak4 : containsSub (hostField n) sakLit = false)
    (h1 : containsSub (keyNameField kn) hostLit = false)
    (h2 : containsSub (keyNameField kn) sakLit = false)
    (h3 : containsSub (keyField k) hostLit = false)
    (hf1 : f1 = hostField n ∨ f1 = keyNameField kn ∨ f1 = keyField k)
    (hf2 : f2 = hostField n ∨ f2 = keyNameField kn ∨ f2 = keyField k)
    (hf3 : f3 = hostField n ∨ f3 = keyNameField kn ∨ f3 = keyField k)
    (hhost : hostField n ∈ [f1, f2, f3]) (hkey : keyField k ∈ [f1, f2, f3]) :
    from_connection_string (f1 ++ 59 :: (f2 ++ 59 :: f3)) ttl now =
      (match generate_sas_token n k ttl now with
       | .ok tok => CSOut.ok ⟨n, tok⟩
       | .error e => CSOut.err e) := by
  have hsemi : ∀ f, (f = hostField n ∨ f = keyNameField kn ∨ f = keyField k) → ¬ 59 ∈ f := by
    intro f hf
    rcases hf with rfl | rfl | rfl
    · unfold hostField
      intro hm
      rcases List.mem_append.mp hm with hm | hm
      · exact absurd hm (by decide)
      · rcases List.mem_append.mp hm with hm | hm
        · exact hn59 hm
        · exact absurd hm (by decide)
    · unfold keyNameField
      intro hm
      rcases List.mem_append.mp hm with hm | hm
      · exact absurd hm (by decide)
      · exact hkn59 hm
    · unfold keyField
      intro hm
      rcases List.mem_append.mp hm with hm | hm
      · exact absurd hm (by decide)
      · exact hk59 hm
  have hsplit : splitSemi (f1 ++ 59 :: (f2 ++ 59 :: f3)) = [f1, f2, f3] := by
    rw [splitSemi_sep _ _ (hsemi f1 hf1), splitSemi_sep _ _ (hsemi f2 hf2),
      splitSemi_nosep _ (hsemi f3 hf3)]
  have hmem : ∀ f ∈ [f1, f2, f3],
      f = hostField n ∨ f = keyNameField kn ∨ f = keyField k := by
    intro f hf
    simp only [List.mem_cons, List.not_mem_nil, or_false] at hf
    rcases hf with rfl | rfl | rfl
    · exact hf1
    · exact hf2
    · exact hf3
  have hfold := foldFields_three n kn k hsuf hsak4 h1 h2 h3 [f1, f2, f3] (none, none) hmem
  unfold from_connection_string
  rw [hsplit]
  simp only [List.length_cons, List.length_nil, hfold, if_pos hhost, if_pos hkey]
  rfl

set_option maxRecDepth 4000 in
/-- Witness for C4: the repository's documentation connection string
resolves by delegating to the signer, and the resulting service has hub
name `cool-iot-hub`. -/
theorem from_connection_string_well_formed_witness :
    from_connection_string
        (utf8 "HostName=cool-iot-hub.azure-devices.net;SharedAccessKeyName=iothubowner;SharedAccessKey=YSB2ZXJ5IHNlY3VyZSBrZXkgaXMgaW1wb3J0YW50Cg==")
        3600 0 =
      (match generate_sas_token (utf8 "cool-iot-hub")
          (utf8 "YSB2ZXJ5IHNlY3VyZSBrZXkgaXMgaW1wb3J0YW50Cg==") 3600 0 with
       | .ok tok => CSOut.ok ⟨utf8 "cool-iot-hub", tok⟩
       | .error e => CSOut.err e) ∧
    csOutName (from_connection_string
        (utf8 "HostName=cool-iot-hub.azure-devices.net;SharedAccessKeyName=iothubowner;SharedAccessKey=YSB2ZXJ5IHNlY3VyZSBrZXkgaXMgaW1wb3J0YW50Cg==")
        3600 0) = some (utf8 "cool-iot-hub") :=
  ⟨from_connection_string_well_formed (utf8 "cool-iot-hub") (utf8 "iothubowner")
      (utf8 "YSB2ZXJ5IHNlY3VyZSBrZXkgaXMgaW1wb3J0YW50Cg==")
      (hostField (utf8 "cool-iot-hub")) (keyNameField (utf8 "iothubowner"))
      (keyField (utf8 "YSB2ZXJ5IHNlY3VyZSBrZXkgaXMgaW1wb3J0YW50Cg==")) 3600 0
      (by decide) (by decide) (by decide) (by decide) (by decide) (by decide) (by decide)
      (by decide) (Or.inl rfl) (Or.inr (Or.inl rfl)) (Or.inr (Or.inr rfl))
      (by simp) (by simp),
   by decide⟩

/-- C5: whenever a required field is missing, `build` fails with a
`MissingValue` error naming the first absent field in the fixed check
order `time_to_live_secs`, `minimum_docker_version`, `edge_hub_image`,
`edge_agent_image`. -/
theorem modules_content_build_missing (b : ModulesContentBuilder)
    (h : b.time_to_live_secs = none ∨ b.minimum_docker_version = none ∨
      b.edge_hub_image = none ∨ b.edge_agent_image = none) :
    b.build = .error ⟨.missingValue
      (if b.time_to_live_secs = none then "time_to_live_secs"
       else if b.minimum_docker_version = none then "minimum_docker_version"
       else if b.edge_hub_image = none then "edge_hub_image"
       else "edge_agent_image")⟩ := by
  rcases ht : b.time_to_live_secs with _ | t
  · simp [ModulesContentBuilder.build, ht]
  · rcases hm : b.minimum_docker_version with _ | m
    · simp [ModulesContentBuilder.build, ht, hm]
    · rcases hh : b.edge_hub_image with _ | hi
      · simp [ModulesContentBuilder.build, ht, hm, hh]
      · rcases ha : b.edge_agent_image with _ | ai
        · simp [ModulesContentBuilder.build, ht, hm, hh, ha]
        · exfalso
          rcases h with h | h | h | h <;> simp_all

/-- Witness for C5: the fresh builder (all four required fields absent)
fails naming `time_to_live_secs`. -/
theorem modules_content_build_missing_witness :
    ModulesContentBuilder.new.build = .error ⟨.missingValue "time_to_live_secs"⟩ :=
  modules_content_build_missing ModulesContentBuilder.new (Or.inl rfl)

/-- C6: with all four required fields present `build` succeeds, with
schema version `1.0` on both sections, runtime type `docker`, and the
Edge Hub system module pinned to restart policy Always and status
Running, whatever else the builder holds. -/
theorem modules_content_build_success (b : ModulesContentBuilder) (t : Nat)
    (md hi ai : String)
    (ht : b.time_to_live_secs = some t) (hm : b.minimum_docker_version = some md)
    (hh : b.edge_hub_image = some hi) (ha : b.edge_agent_image = some ai) :
    ∃ mc : ModulesContent, b.build = .ok mc ∧
      mc.edge_agent.schema_version = "1.0" ∧
      mc.edge_hub.schema_version = "1.0" ∧
      mc.edge_agent.runtime.runtime_type = "docker" ∧
      mc.edge_agent.system_modules.edge_hub.restart_policy = .always ∧
      mc.edge_agent.system_modules.edge_hub.status = .running := by
  unfold ModulesContentBuilder.build
  rw [ht, hm, hh, ha]
  exact ⟨_, rfl, rfl, rfl, rfl, rfl, rfl⟩

/-- Witness for C6 at the spec's example inputs. -/
theorem modules_content_build_success_witness :
    ∃ mc : ModulesContent,
      ((((ModulesContentBuilder.new.set_minimum_docker_version
            "v1.25").set_edge_agent_image "img:1.0").set_edge_hub_image
          "hub:1.0").set_time_to_live_secs 10).build = .ok mc ∧
      mc.edge_agent.schema_version = "1.0" ∧
      mc.edge_hub.schema_version = "1.0" ∧
      mc.edge_agent.runtime.runtime_type = "docker" ∧
      mc.edge_agent.system_modules.edge_hub.restart_policy = .always ∧
      mc.edge_agent.system_modules.edge_hub.status = .running :=
  modules_content_build_success _ 10 "v1.25" "hub:1.0" "img:1.0" rfl rfl rfl rfl

theorem add_edge_modules_fields (ms : List EdgeModule) : ∀ b : ModulesContentBuilder,
    add_edge_modules b ms =
      { b with modules := ms.foldl (fun mp m => mapInsert mp m.module_id m) b.modules } := by
  induction ms with
  | nil => intro b; rfl
  | cons m rest ih => intro b; exact ih (b.edge_module m)

theorem build_modules (b : ModulesContentBuilder) (mc : ModulesContent)
    (hb : b.build = .ok mc) : mc.edge_agent.modules = b.modules := by
  unfold ModulesContentBuilder.build at hb
  rcases ht : b.time_to_live_secs with _ | t
  · rw [ht] at hb
    simp at hb
  · rw [ht] at hb
    rcases hm : b.minimum_docker_version with _ | m
    · rw [hm] at hb
      simp at hb
    · rw [hm] at hb
      rcases hh : b.edge_hub_image with _ | hi
      · rw [hh] at hb
        simp at hb
      · rw [hh] at hb
        rcases ha : b.edge_agent_image with _ | ai
        · rw [ha] at hb
          simp at hb
        · rw [ha] at hb
          simp only [Except.ok.injEq] at hb
          rw [← hb]

theorem lookup_foldl_insert (ms : List EdgeModule) :
    ∀ (mp0 : List (String × EdgeModule)) (k : String),
      mapLookup (ms.foldl (fun mp m => mapInsert mp m.module_id m) mp0) k =
        (match ms.reverse.find? (fun m => m.module_id == k) with
         | some m => some m
         | none => mapLookup mp0 k) := by
  induction ms with
  | nil =>
    intro mp0 k
    simp
  | cons m rest ih =>
    intro mp0 k
    simp only [List.foldl_cons, List.reverse_cons]
    rw [ih, findOpt_append]
    cases hf : rest.reverse.find? (fun mm => mm.module_id == k) with
    | some mf => rfl
    | none =>
      rw [mapLookup_insert]
      by_cases hk : (m.module_id == k) = true
      · have hkk : k = m.module_id := (eq_of_beq hk).symm
        simp [List.find?, hk, hkk]
      · have hkk : ¬ k = m.module_id := by
          intro he
          subst he
          simp at hk
        simp [List.find?, hk, hkk]

/-- C7: in the built manifest the user-module map stores each module
under its own `module_id`, and a module added later replaces an earlier
module with the same id — the lookup equals the last added module with
that id. -/
theorem edge_module_map_keys (ms : List EdgeModule) (b : ModulesContentBuilder)
    (mc : ModulesContent) (k : String)
    (hinv : ∀ k0 m0, mapLookup b.modules k0 = some m0 → m0.module_id = k0)
    (hb : (add_edge_modules b ms).build = .ok mc) :
    (∀ m, mapLookup mc.edge_agent.modules k = some m → m.module_id = k) ∧
    mapLookup mc.edge_agent.modules k =
      (match ms.reverse.find? (fun m => m.module_id == k) with
       | some m => some m
       | none => mapLookup b.modules k) := by
  have h1 := build_modules _ _ hb
  have h2 : (add_edge_modules b ms).modules =
      ms.foldl (fun mp m => mapInsert mp m.module_id m) b.modules := by
    rw [add_edge_modules_fields]
  have hmods := h1.trans h2
  constructor
  · intro m hm
    rw [hmods, lookup_foldl_insert] at hm
    cases hf : ms.reverse.find? (fun mm => mm.module_id == k) with
    | some mf =>
      rw [hf] at hm
      injection hm with hm2
      subst hm2
      have hp := List.find?_some hf
      exact eq_of_beq hp
    | none =>
      rw [hf] at hm
      exact hinv k m hm
  · rw [hmods, lookup_foldl_insert]

/-- Witness for C7: adding modules A, B, then a second module with
id A gives a map whose `A` entry is the later module. -/
theorem edge_module_map_keys_witness :
    mapLookup exampleModulesContent.edge_agent.modules "A" = some exampleModuleA2 ∧
    exampleModuleA2.module_id = "A" ∧
    mapLookup exampleModulesContent.edge_agent.modules "B" = some exampleModuleB := by
  have hb : exampleModulesBuilder.build = .ok exampleModulesContent := rfl
  have hinv : ∀ k0 m0,
      mapLookup (((((ModulesContentBuilder.new.set_time_to_live_secs
        10).set_minimum_docker_version "v1.25").set_edge_hub_image
        "hub:1.0").set_edge_agent_image "img:1.0").modules) k0 = some m0 →
      m0.module_id = k0 := by
    intro k0 m0 h
    simp [mapLookup, ModulesContentBuilder.new, ModulesContentBuilder.set_time_to_live_secs,
      ModulesContentBuilder.set_minimum_docker_version, ModulesContentBuilder.set_edge_hub_image,
      ModulesContentBuilder.set_edge_agent_image] at h
  have hA := edge_module_map_keys [exampleModuleA, exampleModuleB, exampleModuleA2] _
    exampleModulesContent "A" hinv hb
  have hB := edge_module_map_keys [exampleModuleA, exampleModuleB, exampleModuleA2] _
    exampleModulesContent "B" hinv hb
  refine ⟨hA.2.trans (by rfl), ?_, hB.2.trans (by rfl)⟩
  exact hA.1 exampleModuleA2 (hA.2.trans (by rfl))

/-- C8: the twin patch document built by `DesiredTwinBuilder::build` has
the top-level keys `propeties` (sic) and `tags`; the wire key
`properties` required by the twin API is absent, for every builder
state. -/
theorem desired_twin_build_misspelled_key (b : DesiredTwinBuilder) :
    (b.build).contents.objKeys = ["propeties", "tags"] ∧
    ¬ "properties" ∈ (b.build).contents.objKeys := by
  refine ⟨rfl, ?_⟩
  rw [show (b.build).contents.objKeys = ["propeties", "tags"] from rfl]
  decide

/-- C9: the response handling of `apply_modules_configuration` returns
`Ok(())` whenever the body reads successfully, whatever the status code
(the always-true `!= OK || != NO_CONTENT` branch reads the error body
into a local and drops it): a 500 response is reported as success. -/
theorem apply_modules_configuration_swallows_errors :
    apply_modules_configuration_handle 500 (some "internal server error") = .ok () ∧
    ∀ (status : Nat) (body : String),
      apply_modules_configuration_handle status (some body) = .ok () := by
  refine ⟨rfl, fun status body => ?_⟩
  by_cases h : (status != 200 || status != 204) = true
  · simp [apply_modules_configuration_handle, h]
  · simp [apply_modules_configuration_handle, h]

/-- C10: the JSON body built for a direct method created through
`create_device_method` or `create_module_method` carries the caller's
`response_time_out` argument as `connectTimeoutInSeconds` and the
caller's `connect_time_out` argument as `responseTimeoutInSeconds`:
the two positional arguments are passed to `DirectMethod::new` in
swapped order. -/
theorem direct_method_swapped_timeouts :
    (∀ (d m : String) (r c : Nat) (p : Json),
      (create_device_method d m r c).request_body p =
        Json.obj
          [("connectTimeoutInSeconds", Json.num r),
           ("methodName", Json.str m),
           ("payload", p),
           ("responseTimeoutInSeconds", Json.num c)]) ∧
    (∀ (d mo m : String) (r c : Nat) (p : Json),
      (create_module_method d mo m r c).request_body p =
        Json.obj
          [("connectTimeoutInSeconds", Json.num r),
           ("methodName", Json.str m),
           ("payload", p),
           ("responseTimeoutInSeconds", Json.num c)]) ∧
    (create_device_method "SomeDeviceId" "GreatMethod" 100 60).request_body Json.null =
      Json.obj
        [("connectTimeoutInSeconds", Json.num 100),
         ("methodName", Json.str "GreatMethod"),
         ("payload", Json.null),
         ("responseTimeoutInSeconds", Json.num 60)] :=
  ⟨fun _ _ _ _ _ => rfl, fun _ _ _ _ _ _ => rfl, rfl⟩
